import Mathlib

/-!
Verification development for the pewpi-shared core services: the token store,
the auth/session coordinator, the state-machine registry and the pub/sub event
bus. Each JavaScript service object is embedded as a Lean structure holding its
fields, and each method becomes a function passing that state explicitly.
JavaScript Maps become association lists whose set operation replaces in place
and otherwise appends, matching Map insertion order. Methods that can throw are
embedded as Except String values; the catch blocks of the source are translated
by matching on the Except of the guarded sub-computation. Date.now() becomes an
explicit now parameter, and the random id generators become counters threaded
through the state (each generated id is fresh, which is the only property the
code relies on).
-/

/-- Association list lookup, modelling JavaScript Map.get (first matching key). -/
def lookupStr {α : Type} : List (String × α) → String → Option α
  | [], _ => none
  | (k, v) :: t, key => if k = key then some v else lookupStr t key

/-- JavaScript Map.set: replace the value in place when the key exists, otherwise append. -/
def setStr {α : Type} : List (String × α) → String → α → List (String × α)
  | [], key, v => [(key, v)]
  | (k, w) :: t, key, v => if k = key then (key, v) :: t else (k, w) :: setStr t key v

/-- JavaScript Map.delete: remove the entry with the given key, if present. -/
def delStr {α : Type} : List (String × α) → String → List (String × α)
  | [], _ => []
  | (k, w) :: t, key => if k = key then t else (k, w) :: delStr t key

/-! ## Token Service (src, TokenService) -/

/-- A stored token record, from the TokenService constructor in createToken. -/
structure Token where
  id : String
  type : String
  value : String
  payload : List (String × String)
  createdAt : Nat
  expiresAt : Nat
  valid : Bool
  deriving Repr, DecidableEq

/-- The object createToken returns to the caller. -/
structure TokenView where
  id : String
  value : String
  type : String
  expiresAt : Nat
  deriving Repr, DecidableEq

/-- The TokenService instance state. The nextId counter models the freshness of
the generated token ids and values. -/
structure TokenStore where
  inited : Bool
  tokens : List (String × Token)
  nextId : Nat
  deriving Repr, DecidableEq

/-- A TokenService whose initialize has run on a fresh instance. -/
def freshTokenStore : TokenStore := { inited := true, tokens := [], nextId := 0 }

/-- Models TokenService.createToken. The generated id keeps the tok_ marker that
the token auth method of AuthService checks; the opaque random value is likewise
modelled by the counter. -/
def createToken (now : Nat) (s : TokenStore) (ty : String) (payload : List (String × String))
    (expiresIn : Nat) : Except String (TokenStore × TokenView) :=
  if !s.inited then .error "[TokenService] Not initialized" else
  let tokenId := "tok_" ++ toString s.nextId
  let tok : Token :=
    { id := tokenId
      type := if ty = "" then "generic" else ty
      value := "val_" ++ toString s.nextId
      payload := payload
      createdAt := now
      expiresAt := now + expiresIn
      valid := true }
  .ok ({ s with tokens := setStr s.tokens tokenId tok, nextId := s.nextId + 1 },
       { id := tok.id, value := tok.value, type := tok.type, expiresAt := tok.expiresAt })

/-- Models TokenService.validateToken: unknown id gives false; an expired token
is flipped to valid = false in the store (lazy expiry) and reported false;
otherwise the stored valid flag is returned. -/
def validateToken (now : Nat) (s : TokenStore) (tokenId : String) :
    Except String (Bool × TokenStore) :=
  if !s.inited then .error "[TokenService] Not initialized" else
  match lookupStr s.tokens tokenId with
  | none => .ok (false, s)
  | some tok =>
    if tok.expiresAt < now then
      .ok (false, { s with tokens := setStr s.tokens tokenId { tok with valid := false } })
    else
      .ok (tok.valid, s)

/-- Models TokenService.revokeToken. -/
def revokeToken (s : TokenStore) (tokenId : String) : Except String (TokenStore × Bool) :=
  if !s.inited then .error "[TokenService] Not initialized" else
  match lookupStr s.tokens tokenId with
  | none => .ok (s, false)
  | some tok =>
    .ok ({ s with tokens := setStr s.tokens tokenId { tok with valid := false } }, true)

/-- The snapshot TokenService.getToken returns. -/
structure TokenSnapshot where
  id : String
  type : String
  payload : List (String × String)
  createdAt : Nat
  expiresAt : Nat
  valid : Bool
  deriving Repr, DecidableEq

/-- Models TokenService.getToken: a snapshot with valid recomputed through
validateToken (whose lazy-expiry side effect on the store is kept). -/
def getToken (now : Nat) (s : TokenStore) (tokenId : String) :
    Except String (Option TokenSnapshot × TokenStore) :=
  if !s.inited then .error "[TokenService] Not initialized" else
  match lookupStr s.tokens tokenId with
  | none => .ok (none, s)
  | some tok =>
    match validateToken now s tokenId with
    | .error e => .error e
    | .ok (b, s2) =>
      .ok (some { id := tok.id, type := tok.type, payload := tok.payload,
                  createdAt := tok.createdAt, expiresAt := tok.expiresAt, valid := b }, s2)

/-- Models TokenService.cleanupExpiredTokens: delete every record whose expiry
has passed and return the count deleted. -/
def cleanupExpiredTokens (now : Nat) (s : TokenStore) : Except String (TokenStore × Nat) :=
  if !s.inited then .error "[TokenService] Not initialized" else
  let kept := s.tokens.filter (fun p => !(p.2.expiresAt < now))
  .ok ({ s with tokens := kept }, s.tokens.length - kept.length)

/-- A concrete stored token for the C5 witness: expires at time 10, still valid. -/
def tokC5 : Token :=
  { id := "tok_0", type := "session", value := "val_0", payload := [],
    createdAt := 0, expiresAt := 10, valid := true }

/-- A concrete token store holding tokC5. -/
def storeC5 : TokenStore := { inited := true, tokens := [("tok_0", tokC5)], nextId := 1 }

/-! ## Machines Adapter (src, MachinesAdapter) -/

/-- One step of a deep-embedded callable transition action: merge a key into the
machine context (the only adapter-visible effect a callable can have), or raise.
A raise aborts the remaining steps of this action only; _executeActions catches
it and continues with the next action, keeping the context mutations already
applied. -/
inductive ActStep where
  | setCtx (k v : String)
  | raiseStep
  deriving Repr, DecidableEq

/-- A transition action: a callable invoked with (context, eventData), or a
log-only string tag. -/
inductive ActionSpec where
  | tag (s : String)
  | callable (steps : List ActStep)
  deriving Repr, DecidableEq

/-- A transition-table entry: a plain target state name, or an object with a
target and an ordered action list. -/
inductive TransEntry where
  | direct (target : String)
  | withActions (target : String) (actions : List ActionSpec)
  deriving Repr, DecidableEq

/-- The target state of an entry (transition.target, or the string itself). -/
def TransEntry.target : TransEntry → String
  | .direct t => t
  | .withActions t _ => t

/-- A state of the machine definition: its transition table. The field is the
on map of the source, renamed onMap because on is reserved in Lean; an absent
on map is modelled by the empty table. -/
structure StateConfig where
  onMap : List (String × TransEntry)
  deriving Repr, DecidableEq

/-- A registered machine, as built by registerMachine. -/
structure Machine where
  id : String
  name : String
  initialState : String
  currentState : String
  states : List (String × StateConfig)
  context : List (String × String)
  createdAt : Nat
  deriving Repr, DecidableEq

/-- A transition history record (fields from and to of the source are named
fromState and toState here because from is reserved in Lean). -/
structure TransitionRecord where
  machineId : String
  fromState : String
  toState : String
  event : String
  eventData : List (String × String)
  timestamp : Nat
  deriving Repr, DecidableEq

/-- The MachinesAdapter instance state: the machines map, the states mirror map
and the per-machine transition history map. -/
structure MachinesState where
  inited : Bool
  machines : List (String × Machine)
  statesMap : List (String × String)
  transitions : List (String × List TransitionRecord)
  deriving Repr, DecidableEq

/-- A MachinesAdapter whose initialize has run on a fresh instance. -/
def freshMachines : MachinesState :=
  { inited := true, machines := [], statesMap := [], transitions := [] }

/-- The config argument of registerMachine. An empty name models an absent
config.name (JavaScript falsy), for which the machine id is used. -/
structure MachineConfig where
  name : String
  initialState : String
  states : List (String × StateConfig)
  context : List (String × String)
  deriving Repr, DecidableEq

/-- The snapshot getMachine returns. -/
structure MachineView where
  id : String
  name : String
  currentState : String
  context : List (String × String)
  availableTransitions : List String
  deriving Repr, DecidableEq

/-- Models MachinesAdapter._getAvailableTransitions: the keys of the current
state transition table. -/
def getAvailableTransitions (s : MachinesState) (machineId : String) : List String :=
  match lookupStr s.machines machineId with
  | none => []
  | some m =>
    match lookupStr m.states m.currentState with
    | none => []
    | some cfg => cfg.onMap.map Prod.fst

/-- Models MachinesAdapter.getMachine. -/
def getMachine (s : MachinesState) (machineId : String) :
    Except String (Option MachineView) :=
  if !s.inited then .error "[MachinesAdapter] Not initialized" else
  match lookupStr s.machines machineId with
  | none => .ok none
  | some m =>
    .ok (some { id := m.id, name := m.name, currentState := m.currentState,
                context := m.context,
                availableTransitions := getAvailableTransitions s machineId })

/-- Models MachinesAdapter.registerMachine: stores the machine with currentState
set to the initial state, updates the states mirror, and returns getMachine of
the stored machine. Re-registering an existing id overwrites in place; the
transitions map is not touched. -/
def registerMachine (now : Nat) (s : MachinesState) (machineId : String)
    (config : MachineConfig) : Except String (MachinesState × Option MachineView) :=
  if !s.inited then .error "[MachinesAdapter] Not initialized" else
  let m : Machine :=
    { id := machineId
      name := if config.name = "" then machineId else config.name
      initialState := config.initialState
      currentState := config.initialState
      states := config.states
      context := config.context
      createdAt := now }
  let s2 := { s with machines := setStr s.machines machineId m,
                     statesMap := setStr s.statesMap machineId m.currentState }
  match getMachine s2 machineId with
  | .error e => .error e
  | .ok v => .ok (s2, v)

/-- Runs the steps of one callable action over the context; a raise keeps the
mutations already applied and drops the remaining steps of this action. -/
def runActSteps : List ActStep → List (String × String) → List (String × String)
  | [], ctx => ctx
  | .setCtx k v :: rest, ctx => runActSteps rest (setStr ctx k v)
  | .raiseStep :: _, ctx => ctx

/-- Models MachinesAdapter._executeActions: actions run sequentially; an error
inside one action is caught and logged and execution continues with the next
action. String-tag actions are log-only. -/
def executeActions : List ActionSpec → List (String × String) → List (String × String)
  | [], ctx => ctx
  | .tag _ :: rest, ctx => executeActions rest ctx
  | .callable steps :: rest, ctx => executeActions rest (runActSteps steps ctx)

/-- The result object of MachinesAdapter.transition. The failure shape carries
success, currentState and error; the success shape carries success,
previousState, currentState and event. Absent fields are none. -/
structure TransitionResult where
  success : Bool
  currentState : String
  previousState : Option String
  event : Option String
  error : Option String
  deriving Repr, DecidableEq

/-- Models MachinesAdapter.transition. An unknown machine id and an unknown
current state raise (Except.error); a current state whose table has no entry
for the event returns the soft failure result and leaves the state untouched;
otherwise actions run, the state is committed and a history record appended. -/
def transition (now : Nat) (s : MachinesState) (machineId event : String)
    (eventData : List (String × String)) :
    Except String (MachinesState × TransitionResult) :=
  if !s.inited then .error "[MachinesAdapter] Not initialized" else
  match lookupStr s.machines machineId with
  | none => .error ("[MachinesAdapter] Machine not found: " ++ machineId)
  | some machine =>
    let currentState := machine.currentState
    match lookupStr machine.states currentState with
    | none => .error ("[MachinesAdapter] Invalid state: " ++ currentState)
    | some stateConfig =>
      match lookupStr stateConfig.onMap event with
      | none =>
        .ok (s, { success := false, currentState := currentState,
                  previousState := none, event := none,
                  error := some "Invalid transition" })
      | some entry =>
        let targetState := entry.target
        let ctx2 := match entry with
          | .direct _ => machine.context
          | .withActions _ actions => executeActions actions machine.context
        let machine2 := { machine with currentState := targetState, context := ctx2 }
        let record : TransitionRecord :=
          { machineId := machineId, fromState := currentState, toState := targetState,
            event := event, eventData := eventData, timestamp := now }
        let hist := (lookupStr s.transitions machineId).getD []
        let s2 := { s with machines := setStr s.machines machineId machine2,
                           statesMap := setStr s.statesMap machineId targetState,
                           transitions := setStr s.transitions machineId (hist ++ [record]) }
        .ok (s2, { success := true, currentState := targetState,
                   previousState := some currentState, event := some event,
                   error := none })

/-- Models MachinesAdapter.getCurrentState. -/
def getCurrentState (s : MachinesState) (machineId : String) :
    Except String (Option String) :=
  if !s.inited then .error "[MachinesAdapter] Not initialized" else
  .ok ((lookupStr s.machines machineId).map Machine.currentState)

/-- JavaScript arr.slice(-limit): the last limit elements; since -0 is 0, a zero
limit gives the whole array. -/
def sliceLast {α : Type} (l : List α) (limit : Nat) : List α :=
  if limit = 0 then l else l.drop (l.length - limit)

/-- Models MachinesAdapter.getTransitionHistory. -/
def getTransitionHistory (s : MachinesState) (machineId : String) (limit : Nat) :
    Except String (List TransitionRecord) :=
  if !s.inited then .error "[MachinesAdapter] Not initialized" else
  .ok (sliceLast ((lookupStr s.transitions machineId).getD []) limit)

/-- Models MachinesAdapter.updateContext (shallow merge). -/
def updateContext (s : MachinesState) (machineId : String)
    (contextUpdates : List (String × String)) : Except String (MachinesState × Bool) :=
  if !s.inited then .error "[MachinesAdapter] Not initialized" else
  match lookupStr s.machines machineId with
  | none => .ok (s, false)
  | some m =>
    let m2 := { m with context := contextUpdates.foldl (fun c p => setStr c p.1 p.2) m.context }
    .ok ({ s with machines := setStr s.machines machineId m2 }, true)

/-- Models MachinesAdapter.removeMachine: deletes the machine, its states mirror
entry and its transition history together. -/
def removeMachine (s : MachinesState) (machineId : String) :
    Except String (MachinesState × Bool) :=
  if !s.inited then .error "[MachinesAdapter] Not initialized" else
  if (lookupStr s.machines machineId).isSome then
    .ok ({ s with machines := delStr s.machines machineId,
                  statesMap := delStr s.statesMap machineId,
                  transitions := delStr s.transitions machineId }, true)
  else .ok (s, false)

/-- The spec example machine: state idle with only START mapping to running. -/
def cfgC4 : StateConfig := { onMap := [("START", TransEntry.direct "running")] }

/-- The spec example machine registered under id m1. -/
def machineC4 : Machine :=
  { id := "m1", name := "m1", initialState := "idle", currentState := "idle",
    states := [("idle", cfgC4)], context := [], createdAt := 0 }

/-- A registry holding only machineC4. -/
def stateC4 : MachinesState :=
  { inited := true, machines := [("m1", machineC4)],
    statesMap := [("m1", "idle")], transitions := [] }

/-- A history record for the C8 witness. -/
def recC8 : TransitionRecord :=
  { machineId := "m1", fromState := "idle", toState := "running",
    event := "START", eventData := [], timestamp := 1 }

/-- A registry with machineC4 and one accumulated history record. -/
def stateC8 : MachinesState :=
  { inited := true, machines := [("m1", machineC4)],
    statesMap := [("m1", "idle")], transitions := [("m1", [recC8])] }

/-- The replacement definition used in the C8 witness. -/
def configC8 : MachineConfig :=
  { name := "machine one", initialState := "idle",
    states := [("idle", cfgC4)], context := [] }

/-- The machine stored by the C8 re-registration. -/
def machineC8 : Machine :=
  { id := "m1", name := "machine one", initialState := "idle",
    currentState := "idle", states := [("idle", cfgC4)], context := [],
    createdAt := 5 }

/-- The registry after the C8 re-registration. -/
def stateC8b : MachinesState :=
  { inited := true, machines := [("m1", machineC8)],
    statesMap := [("m1", "idle")], transitions := [("m1", [recC8])] }

/-- The view returned by the C8 re-registration. -/
def viewC8 : Option MachineView :=
  some { id := "m1", name := "machine one", currentState := "idle",
         context := [], availableTransitions := ["START"] }

/-! ## Auth Service (src, AuthService) -/

/-- A user object created by authenticate. The allocId field models JavaScript
object identity: every constructed user object carries a fresh allocation id,
so the === comparison between a stored user object and the current user object
is equality of allocation ids. -/
structure User where
  allocId : Nat
  id : String
  identifier : String
  authMethod : String
  authenticatedAt : Nat
  deriving Repr, DecidableEq

/-- Models the JavaScript === comparison between two user objects. -/
def refEq (u v : User) : Bool := u.allocId == v.allocId

/-- A session record stored in the sessions map, keyed by the token id. -/
structure Session where
  user : User
  tokenId : String
  createdAt : Nat
  deriving Repr, DecidableEq

/-- The result object of authenticate. Absent fields are none. -/
structure AuthResult where
  success : Bool
  user : Option User
  sessionToken : Option TokenView
  error : Option String
  deriving Repr, DecidableEq

/-- The AuthService instance state. The storage field is the external
pewpi_session localStorage slot the service mirrors the session token id into;
nextAlloc feeds both the generated user ids and the allocation ids modelling
object identity. -/
structure AuthState where
  inited : Bool
  currentUser : Option User
  sessions : List (String × Session)
  nextAlloc : Nat
  storage : Option String
  deriving Repr, DecidableEq

/-- An AuthService whose initialize has run on a fresh instance with an empty
storage mirror. -/
def freshAuth : AuthState :=
  { inited := true, currentUser := none, sessions := [], nextAlloc := 0,
    storage := none }

/-- Models AuthService._validateCredentials: empty identifier or credential is
rejected; otherwise wallet requires a credential of length at least 32, token
requires the tok_ marker, and password (the default) requires length at least 8. -/
def validateCredentials (identifier credential method : String) : Bool :=
  if identifier = "" ∨ credential = "" then false
  else match method with
    | "wallet" => 32 ≤ credential.length
    | "token" => credential.startsWith "tok_"
    | _ => 8 ≤ credential.length

/-- Models AuthService.authenticate. On a failed shape check no token, session
or current user is created. On success a 24 hour session token is minted, the
session stored under the token id, the current-user slot set and the token id
mirrored to storage. A raise from createToken is caught by the try block and
reported as a success false result. -/
def authenticate (now : Nat) (a : AuthState) (ts : TokenStore)
    (identifier credential method : String) :
    Except String (AuthState × TokenStore × AuthResult) :=
  if !a.inited then .error "[AuthService] Not initialized" else
  if !(validateCredentials identifier credential method) then
    .ok (a, ts, { success := false, user := none, sessionToken := none,
                  error := some "Invalid credentials" })
  else
    let user : User :=
      { allocId := a.nextAlloc, id := "usr_" ++ toString a.nextAlloc,
        identifier := identifier, authMethod := method, authenticatedAt := now }
    match createToken now ts "session"
        [("userId", user.id), ("identifier", identifier), ("method", method)]
        86400000 with
    | .error e =>
      .ok (a, ts, { success := false, user := none, sessionToken := none,
                    error := some e })
    | .ok (ts2, sessionToken) =>
      let a2 := { a with
        sessions := setStr a.sessions sessionToken.id
          { user := user, tokenId := sessionToken.id, createdAt := now },
        currentUser := some user,
        nextAlloc := a.nextAlloc + 1,
        storage := some sessionToken.id }
      .ok (a2, ts2, { success := true, user := some user,
                      sessionToken := some sessionToken, error := none })

/-- Models AuthService.validateSession: true iff a session record exists for the
token id and the underlying token still validates (keeping the lazy-expiry side
effect of validateToken on the token store). -/
def validateSession (now : Nat) (a : AuthState) (ts : TokenStore) (tokenId : String) :
    Except String (Bool × TokenStore) :=
  if !a.inited then .error "[AuthService] Not initialized" else
  match lookupStr a.sessions tokenId with
  | none => .ok (false, ts)
  | some _ => validateToken now ts tokenId

/-- Models AuthService.getCurrentUser. -/
def getCurrentUser (a : AuthState) : Except String (Option User) :=
  if !a.inited then .error "[AuthService] Not initialized" else .ok a.currentUser

/-- Models AuthService.logout: every session whose stored user object is === to
the current user object is revoked and removed; the current-user slot and the
storage mirror are cleared. When the token service is not inited, its
revokeToken raises on the first matching session and the catch returns false
with the state as mutated so far; with no matching session the loop completes
normally. -/
def logout (a : AuthState) (ts : TokenStore) :
    Except String (AuthState × TokenStore × Bool) :=
  if !a.inited then .error "[AuthService] Not initialized" else
  let isCur : String × Session → Bool := fun p =>
    match a.currentUser with
    | none => false
    | some u => refEq p.2.user u
  let matching := a.sessions.filter isCur
  if ts.inited then
    let ts2 := matching.foldl (fun t p =>
      match revokeToken t p.1 with
      | .ok (t2, _) => t2
      | .error _ => t) ts
    .ok ({ a with sessions := a.sessions.filter (fun p => !(isCur p)),
                  currentUser := none, storage := none }, ts2, true)
  else
    if matching.isEmpty then
      .ok ({ a with currentUser := none, storage := none }, ts, true)
    else
      .ok (a, ts, false)

/-- Unwrap an Except with a fallback, for naming concrete witness states. -/
def okOr {α : Type} (d : α) : Except String α → α
  | .ok x => x
  | .error _ => d

/-- First authentication of the C10 witness scenario. -/
def c10w1 : AuthState × TokenStore × AuthResult :=
  okOr (freshAuth, freshTokenStore,
        { success := false, user := none, sessionToken := none, error := none })
    (authenticate 5 freshAuth freshTokenStore "a@b.com" "longenoughpassword" "password")

/-- Second authentication of the C10 witness scenario. -/
def c10w2 : AuthState × TokenStore × AuthResult :=
  okOr (freshAuth, freshTokenStore,
        { success := false, user := none, sessionToken := none, error := none })
    (authenticate 6 c10w1.1 c10w1.2.1 "a@b.com" "longenoughpassword" "password")

/-- Logout of the C10 witness scenario. -/
def c10w3 : AuthState × TokenStore × Bool :=
  okOr (freshAuth, freshTokenStore, false) (logout c10w2.1 c10w2.2.1)

/-! ## Integration Listener (src, IntegrationListener) -/

/-- One step a deep-embedded event handler can take: ordinary work with no
effect on the bus, a re-entrant emit on the bus, or a raise (rejecting the
handler; _processEvent catches it). -/
inductive HAct where
  | pureAct
  | emitAct (etype edata : String)
  | raiseAct
  deriving Repr, DecidableEq

/-- A registered listener; the handler is the deep-embedded step list. -/
structure HListener where
  id : Nat
  eventType : String
  handler : List HAct
  once : Bool
  priority : Int
  registeredAt : Nat
  deriving Repr, DecidableEq

/-- An event record in the dispatch queue. -/
structure BusEvent where
  type : String
  data : String
  timestamp : Nat
  id : Nat
  deriving Repr, DecidableEq

/-- The IntegrationListener instance state. The invocations list instruments
the model: it records listener ids in invocation order, which is the observable
the ordering guarantees of the bus are about. nextListenerId and nextEventId
model the id generators. -/
structure BusState where
  inited : Bool
  listeners : List (String × List HListener)
  eventQueue : List BusEvent
  processing : Bool
  nextListenerId : Nat
  nextEventId : Nat
  invocations : List Nat
  deriving Repr, DecidableEq

/-- An IntegrationListener whose initialize has run on a fresh instance. -/
def freshBus : BusState :=
  { inited := true, listeners := [], eventQueue := [], processing := false,
    nextListenerId := 0, nextEventId := 0, invocations := [] }

/-- The listener array for an event type (empty when the key is absent). -/
def listenersFor (s : BusState) (etype : String) : List HListener :=
  (lookupStr s.listeners etype).getD []

/-- Insert a listener into an already placed list after every element whose
priority is at least its own: the position a stable sort gives an element
arriving later in the input. -/
def insertAfterGE (x : HListener) : List HListener → List HListener
  | [] => [x]
  | h :: t => if h.priority ≥ x.priority then h :: insertAfterGE x t else x :: h :: t

/-- The JavaScript stable Array.sort with comparator (a, b) => b.priority -
a.priority: elements are taken left to right and each is placed after the
already placed elements of priority at least its own, giving descending
priority with ties in input order. -/
def stableSortDesc (l : List HListener) : List HListener :=
  l.foldl (fun acc x => insertAfterGE x acc) []

/-- Models IntegrationListener.on (named onFn because on is reserved in Lean):
register a listener and re-sort that event type by descending priority with the
stable sort; returns the listener id. -/
def onFn (now : Nat) (s : BusState) (etype : String) (handler : List HAct)
    (once : Bool) (priority : Int) : Except String (BusState × Nat) :=
  if !s.inited then .error "[IntegrationListener] Not initialized" else
  let l : HListener :=
    { id := s.nextListenerId, eventType := etype, handler := handler,
      once := once, priority := priority, registeredAt := now }
  .ok ({ s with
          listeners := setStr s.listeners etype
            (stableSortDesc (listenersFor s etype ++ [l])),
          nextListenerId := s.nextListenerId + 1 }, l.id)

/-- Remove the first listener with the given id from one array (the findIndex
plus splice of IntegrationListener.off). -/
def removeFirstById : List HListener → Nat → List HListener
  | [], _ => []
  | l :: t, lid => if l.id == lid then t else l :: removeFirstById t lid

/-- The scan of IntegrationListener.off over the listeners map in insertion
order: remove the first listener with the given id; report whether one was
found. -/
def removeListener : List (String × List HListener) → Nat →
    List (String × List HListener) × Bool
  | [], _ => ([], false)
  | (et, ls) :: rest, lid =>
    if ls.any (fun l => l.id == lid) then
      ((et, removeFirstById ls lid) :: rest, true)
    else
      let (rest2, found) := removeListener rest lid
      ((et, ls) :: rest2, found)

/-- Models IntegrationListener.off. -/
def off (s : BusState) (listenerId : Nat) : Except String (BusState × Bool) :=
  if !s.inited then .error "[IntegrationListener] Not initialized" else
  let p := removeListener s.listeners listenerId
  .ok ({ s with listeners := p.1 }, p.2)

/-- One step of the toRemove.forEach(id => this.off(id)) loop of _processEvent.
The error branch is unreachable there (the bus is inited whenever an event is
being processed); it keeps the function total. -/
def offCatch (st : BusState) (lid : Nat) : BusState :=
  match off st lid with
  | .ok q => q.1
  | .error _ => st

mutual

/-- Models IntegrationListener.emit: append the event record to the FIFO queue,
then run _processQueue. The fuel bounds the number of drain iterations; each
statement below supplies enough fuel for its scenario. -/
def emit (fuel : Nat) (s : BusState) (now : Nat) (etype edata : String) :
    Except String BusState :=
  if !s.inited then .error "[IntegrationListener] Not initialized" else
  let ev : BusEvent :=
    { type := etype, data := edata, timestamp := now, id := s.nextEventId }
  .ok (processQueue fuel
        { s with eventQueue := s.eventQueue ++ [ev],
                 nextEventId := s.nextEventId + 1 })
termination_by (fuel, 1, 0)

/-- Models IntegrationListener._processQueue: return at once when a drain is
already in progress or the queue is empty; otherwise set the processing flag,
run the drain loop, and clear the flag. -/
def processQueue : Nat → BusState → BusState
  | 0, s => s
  | fuel + 1, s =>
    if s.processing ∨ s.eventQueue.isEmpty then s
    else
      let s2 := drainQueue fuel { s with processing := true }
      { s2 with processing := false }
termination_by fuel _ => (fuel, 0, 0)

/-- The while loop of _processQueue: shift the head event and process it. -/
def drainQueue : Nat → BusState → BusState
  | 0, s => s
  | fuel + 1, s =>
    match s.eventQueue with
    | [] => s
    | ev :: rest => drainQueue fuel (processEvent fuel { s with eventQueue := rest } ev)
termination_by fuel _ => (fuel, 5, 0)

/-- Models IntegrationListener._processEvent: invoke each listener of the event
type in array order, collect the once listeners whose handler completed without
raising, then remove those via off. Handlers of the model touch the bus only
through emit, which never mutates the listeners map, so iterating this snapshot
equals iterating the live array of the source. -/
def processEvent (fuel : Nat) (s : BusState) (ev : BusEvent) : BusState :=
  match lookupStr s.listeners ev.type with
  | none => s
  | some ls =>
    if ls.isEmpty then s
    else
      let p := runListeners fuel s ev ls
      p.2.foldl offCatch p.1
termination_by (fuel, 4, 0)

/-- The listener loop of _processEvent: append each listener id to the
invocation log, run its handler, and return the ids of the once listeners whose
handler completed without raising (the push to toRemove sits after the await
inside the try block, so a raising handler is not collected). -/
def runListeners (fuel : Nat) (s : BusState) (ev : BusEvent) :
    List HListener → BusState × List Nat
  | [] => (s, [])
  | l :: ls =>
    let s0 := { s with invocations := s.invocations ++ [l.id] }
    let p1 := runHandler fuel s0 ev l.handler
    let p2 := runListeners fuel p1.1 ev ls
    (p2.1, (if p1.2 && l.once then [l.id] else []) ++ p2.2)
termination_by ls => (fuel, 3, ls.length)

/-- Interpret a handler: pure steps leave the bus alone, an emit step calls
emit on the bus, and a raise step rejects the handler (as does a raise escaping
the inner emit). Returns the state and whether the handler completed without
raising. -/
def runHandler (fuel : Nat) (s : BusState) (ev : BusEvent) :
    List HAct → BusState × Bool
  | [] => (s, true)
  | .pureAct :: rest => runHandler fuel s ev rest
  | .raiseAct :: _ => (s, false)
  | .emitAct t d :: rest =>
    match emit fuel s ev.timestamp t d with
    | .ok s2 => runHandler fuel s2 ev rest
    | .error _ => (s, false)
termination_by acts => (fuel, 2, acts.length)

end

/-- Models IntegrationListener.getListeners. -/
def getListeners (s : BusState) (etype : String) :
    Except String (List HListener) :=
  if !s.inited then .error "[IntegrationListener] Not initialized" else
  .ok (listenersFor s etype)

/-- Models IntegrationListener.clearListeners for a single event type. -/
def clearListenersFor (s : BusState) (etype : String) :
    Except String (BusState × Nat) :=
  if !s.inited then .error "[IntegrationListener] Not initialized" else
  match lookupStr s.listeners etype with
  | none => .ok (s, 0)
  | some ls =>
    .ok ({ s with listeners := delStr s.listeners etype }, ls.length)

/-- Models IntegrationListener.clearListeners with no event type: clear all. -/
def clearAllListeners (s : BusState) : Except String (BusState × Nat) :=
  if !s.inited then .error "[IntegrationListener] Not initialized" else
  .ok ({ s with listeners := [] },
       (s.listeners.map (fun p => p.2.length)).sum)

/-! ## Event bus handler predicates, ordering invariant, and scenario states -/

/-- True when a handler performs no re-entrant emit. -/
def emitFree : List HAct → Bool
  | [] => true
  | .emitAct _ _ :: _ => false
  | .pureAct :: rest => emitFree rest
  | .raiseAct :: rest => emitFree rest

/-- True when a handler raises before completing. -/
def hasRaise : List HAct → Bool
  | [] => false
  | .raiseAct :: _ => true
  | .pureAct :: rest => hasRaise rest
  | .emitAct _ _ :: rest => hasRaise rest

/-- The ordering invariant relation of a listener list: strictials descending
priority, with ties broken by ascending id (ids are assigned in registration
order, so ties keep registration order). -/
def relFn (a b : HListener) : Prop :=
  b.priority < a.priority ∨ (a.priority = b.priority ∧ a.id < b.id)

/-- Weak descending priority. -/
def descFn (a b : HListener) : Prop := b.priority ≤ a.priority

/-- The listener-table invariant: each per-type array is sorted by descending
priority with ties in id (registration) order, and every stored id is below the
id counter. -/
def busInv (s : BusState) : Prop :=
  (∀ t, (listenersFor s t).Pairwise relFn) ∧
  (∀ t, ∀ l ∈ listenersFor s t, l.id < s.nextListenerId)

/-- One registration request for a sequence of on calls. -/
structure RegSpec where
  etype : String
  handler : List HAct
  once : Bool
  priority : Int
  deriving Repr, DecidableEq

/-- Fold a sequence of on registrations over a bus state (a failed on, possible
only on an uninitialized bus, leaves the state unchanged). -/
def regMany (s : BusState) : List RegSpec → BusState
  | [] => s
  | r :: rest =>
    match onFn 0 s r.etype r.handler r.once r.priority with
    | .ok q => regMany q.1 rest
    | .error _ => regMany s rest

def c6regs : List RegSpec :=
  [⟨"evt", [], false, 1⟩, ⟨"evt", [], false, 5⟩, ⟨"evt", [], false, 3⟩,
   ⟨"evt", [], false, 5⟩]

def sC6 : BusState := regMany freshBus c6regs

def sC6after : BusState :=
  { sC6 with
    nextEventId := sC6.nextEventId + 1,
    invocations := sC6.invocations ++ (listenersFor sC6 "evt").map (fun l => l.id) }

def lsnA : HListener :=
  { id := 0, eventType := "A", handler := [], once := false, priority := 0,
    registeredAt := 0 }

def lsnB : HListener :=
  { id := 1, eventType := "B", handler := [], once := false, priority := 0,
    registeredAt := 0 }

def busQ : BusState :=
  { inited := true, listeners := [("A", [lsnA])], eventQueue := [],
    processing := false, nextListenerId := 1, nextEventId := 0, invocations := [] }

def busMid : BusState :=
  { inited := true, listeners := [("B", [lsnB])], eventQueue := [],
    processing := true, nextListenerId := 2, nextEventId := 1, invocations := [0] }

def busMidPost : BusState :=
  { inited := true, listeners := [("B", [lsnB])],
    eventQueue := [{ type := "B", data := "y", timestamp := 1, id := 1 }],
    processing := true, nextListenerId := 2, nextEventId := 2, invocations := [0] }

def busC7 : BusState :=
  { inited := true, listeners := [("A", [lsnA]), ("B", [lsnB])], eventQueue := [],
    processing := false, nextListenerId := 2, nextEventId := 0, invocations := [] }

def busC7a : BusState :=
  { inited := true, listeners := [("A", [lsnA]), ("B", [lsnB])], eventQueue := [],
    processing := false, nextListenerId := 2, nextEventId := 1, invocations := [0] }

def busC7b : BusState :=
  { inited := true, listeners := [("A", [lsnA]), ("B", [lsnB])], eventQueue := [],
    processing := false, nextListenerId := 2, nextEventId := 2, invocations := [0, 1] }

def lsnE : HListener :=
  { id := 0, eventType := "E", handler := [HAct.raiseAct], once := true,
    priority := 0, registeredAt := 0 }

def busE : BusState :=
  { inited := true, listeners := [("E", [lsnE])], eventQueue := [],
    processing := false, nextListenerId := 1, nextEventId := 0, invocations := [] }

def busEa : BusState :=
  { inited := true, listeners := [("E", [lsnE])], eventQueue := [],
    processing := false, nextListenerId := 1, nextEventId := 1, invocations := [0] }

def busEb : BusState :=
  { inited := true, listeners := [("E", [lsnE])], eventQueue := [],
    processing := false, nextListenerId := 1, nextEventId := 2, invocations := [0, 0] }

def lsnO : HListener :=
  { id := 0, eventType := "E", handler := [], once := true, priority := 0,
    registeredAt := 0 }

def busO : BusState :=
  { inited := true, listeners := [("E", [lsnO])], eventQueue := [],
    processing := false, nextListenerId := 1, nextEventId := 0, invocations := [] }

def busOa : BusState :=
  { inited := true, listeners := [("E", [])], eventQueue := [],
    processing := false, nextListenerId := 1, nextEventId := 1, invocations := [0] }

def busOb : BusState :=
  { inited := true, listeners := [("E", [])], eventQueue := [],
    processing := false, nextListenerId := 1, nextEventId := 2, invocations := [0] }

/-! ## Lemmas and claim theorems -/

theorem lookupStr_setStr_self {α : Type} (m : List (String × α)) (k : String) (v : α) :
    lookupStr (setStr m k v) k = some v := by
  induction m with
  | nil => simp [setStr, lookupStr]
  | cons hd t ih =>
    obtain ⟨k2, w⟩ := hd
    by_cases h : k2 = k
    · simp [setStr, lookupStr, h]
    · simp [setStr, lookupStr, h, ih]

theorem lookupStr_setStr_other {α : Type} (m : List (String × α)) (k k2 : String) (v : α)
    (h : k2 ≠ k) : lookupStr (setStr m k v) k2 = lookupStr m k2 := by
  have hne : ¬ k = k2 := fun hh => h hh.symm
  induction m with
  | nil => simp [setStr, lookupStr, hne]
  | cons hd t ih =>
    obtain ⟨k3, w⟩ := hd
    by_cases h3 : k3 = k
    · subst h3
      simp [setStr, lookupStr, hne]
    · by_cases h4 : k3 = k2
      · simp [setStr, lookupStr, h3, h4, h]
      · simp [setStr, lookupStr, h3, h4, ih]

/-- C5: for every stored token, validateToken returns true iff the stored valid
flag is true and now is at most expiresAt; and once validateToken has returned
false because the expiry time passed, the stored flag is permanently false, so
every later validateToken call on that id returns false even at an earlier
apparent clock time now2. -/
theorem c5_validate_token_expiry (now now2 : Nat) (s : TokenStore) (tokenId : String)
    (tok : Token) (hin : s.inited = true) (hlk : lookupStr s.tokens tokenId = some tok) :
    (validateToken now s tokenId).map Prod.fst
      = .ok (tok.valid && decide (now ≤ tok.expiresAt)) ∧
    (tok.expiresAt < now →
      (validateToken now s tokenId).bind
          (fun p => (validateToken now2 p.2 tokenId).map Prod.fst)
        = .ok false) := by
  constructor
  · by_cases hexp : tok.expiresAt < now
    · have hnle : ¬ now ≤ tok.expiresAt := by omega
      simp [validateToken, hin, hlk, hexp, hnle, Except.map]
    · have hle : now ≤ tok.expiresAt := by omega
      simp [validateToken, hin, hlk, hexp, hle, Except.map]
  · intro hexp
    have hlk2 : lookupStr (setStr s.tokens tokenId { tok with valid := false }) tokenId
        = some { tok with valid := false } := lookupStr_setStr_self s.tokens tokenId _
    by_cases hexp2 : tok.expiresAt < now2
    · simp [validateToken, hin, hlk, hexp, hlk2, hexp2, Except.map, Except.bind]
    · simp [validateToken, hin, hlk, hexp, hlk2, hexp2, Except.map, Except.bind]

/-- C5 witness: the theorem applied at time 11 (past expiry) with re-validation
at the earlier apparent time 5. -/
theorem c5_validate_token_expiry_witness :
    storeC5.inited = true ∧ lookupStr storeC5.tokens "tok_0" = some tokC5 ∧
    ((validateToken 11 storeC5 "tok_0").map Prod.fst
        = .ok (tokC5.valid && decide (11 ≤ tokC5.expiresAt)) ∧
      (tokC5.expiresAt < 11 →
        (validateToken 11 storeC5 "tok_0").bind
            (fun p => (validateToken 5 p.2 "tok_0").map Prod.fst)
          = .ok false)) :=
  ⟨rfl, by decide, c5_validate_token_expiry 11 5 storeC5 "tok_0" tokC5 rfl (by decide)⟩

/-- C3 counterexample: the claim fails on the code. On a freshly initialized
registry, transition with the unregistered machineId m1 raises (Except.error,
the embedding of a thrown Error) instead of returning a success false result
value. -/
theorem c3_missing_machine_raises_cex :
    transition 0 freshMachines "m1" "GO" []
      = .error "[MachinesAdapter] Machine not found: m1" := by
  rfl

/-- C3 amended: for every initialized machine registry, calling transition with
a machineId that is not registered raises a Machine not found exception (it does
not report a success false result value). -/
theorem c3_missing_machine_amended (now : Nat) (s : MachinesState)
    (machineId event : String) (eventData : List (String × String))
    (hin : s.inited = true) (hmiss : lookupStr s.machines machineId = none) :
    transition now s machineId event eventData
      = .error ("[MachinesAdapter] Machine not found: " ++ machineId) := by
  simp [transition, hin, hmiss]

/-- C3 amended witness: the amended theorem at the fresh registry and machine m1. -/
theorem c3_missing_machine_amended_witness :
    freshMachines.inited = true ∧ lookupStr freshMachines.machines "m1" = none ∧
    transition 0 freshMachines "m1" "GO" []
      = .error ("[MachinesAdapter] Machine not found: " ++ "m1") :=
  ⟨rfl, rfl, c3_missing_machine_amended 0 freshMachines "m1" "GO" [] rfl rfl⟩

/-- C4: for a registered machine whose current state exists in the definition
but whose transition table has no entry for the incoming event, transition
returns the soft failure success false, currentState as before, error Invalid
transition, and the registry state (machines, context, history) is exactly
unchanged. -/
theorem c4_invalid_transition_soft_fail (now : Nat) (s : MachinesState)
    (machineId event : String) (eventData : List (String × String)) (m : Machine)
    (cfg : StateConfig) (hin : s.inited = true)
    (hm : lookupStr s.machines machineId = some m)
    (hs : lookupStr m.states m.currentState = some cfg)
    (he : lookupStr cfg.onMap event = none) :
    transition now s machineId event eventData
      = .ok (s, { success := false, currentState := m.currentState,
                  previousState := none, event := none,
                  error := some "Invalid transition" }) := by
  simp [transition, hin, hm, hs, he]

/-- C4 witness: the theorem at the spec example, event STOP in state idle. -/
theorem c4_invalid_transition_soft_fail_witness :
    stateC4.inited = true ∧
    lookupStr stateC4.machines "m1" = some machineC4 ∧
    lookupStr machineC4.states machineC4.currentState = some cfgC4 ∧
    lookupStr cfgC4.onMap "STOP" = none ∧
    transition 7 stateC4 "m1" "STOP" []
      = .ok (stateC4, { success := false, currentState := machineC4.currentState,
                        previousState := none, event := none,
                        error := some "Invalid transition" }) :=
  ⟨rfl, by decide, by decide, by decide,
   c4_invalid_transition_soft_fail 7 stateC4 "m1" "STOP" [] machineC4 cfgC4
     rfl (by decide) (by decide) (by decide)⟩

/-- C8: re-registering an existing machineId replaces the machine definition and
resets currentState to the new initialState, but the transitions map (and hence
getTransitionHistory for that machineId) is untouched, so the records
accumulated before the re-registration remain. -/
theorem c8_reregister_preserves_history (now : Nat) (s : MachinesState)
    (machineId : String) (config : MachineConfig) (limit : Nat) (m0 : Machine)
    (s2 : MachinesState) (v : Option MachineView)
    (hin : s.inited = true) (hold : lookupStr s.machines machineId = some m0)
    (hhist : (lookupStr s.transitions machineId).getD [] ≠ [])
    (hreg : registerMachine now s machineId config = .ok (s2, v)) :
    s2.transitions = s.transitions ∧
    getTransitionHistory s2 machineId limit = getTransitionHistory s machineId limit ∧
    (lookupStr s2.machines machineId).map Machine.currentState
      = some config.initialState := by
  simp [registerMachine, hin, getMachine, lookupStr_setStr_self] at hreg
  obtain ⟨h1, h2⟩ := hreg
  subst h1
  refine ⟨rfl, ?_, ?_⟩
  · simp [getTransitionHistory, hin]
  · simp [lookupStr_setStr_self]

/-- C8 witness: the theorem at the concrete re-registration of m1. -/
theorem c8_reregister_preserves_history_witness :
    stateC8.inited = true ∧
    lookupStr stateC8.machines "m1" = some machineC4 ∧
    (lookupStr stateC8.transitions "m1").getD [] ≠ [] ∧
    registerMachine 5 stateC8 "m1" configC8 = .ok (stateC8b, viewC8) ∧
    (stateC8b.transitions = stateC8.transitions ∧
      getTransitionHistory stateC8b "m1" 10 = getTransitionHistory stateC8 "m1" 10 ∧
      (lookupStr stateC8b.machines "m1").map Machine.currentState
        = some configC8.initialState) :=
  ⟨rfl, by decide, by decide, by rfl,
   c8_reregister_preserves_history 5 stateC8 "m1" configC8 10 machineC4 stateC8b viewC8
     rfl (by decide) (by decide) (by rfl)⟩

/-- C9: for every authentication method, authenticate with an empty identifier
or an empty credential returns the Invalid credentials failure result and
creates no token, session or current user: the auth state and the token store
are returned exactly unchanged. -/
theorem c9_empty_credentials_rejected (now : Nat) (a : AuthState) (ts : TokenStore)
    (identifier credential method : String) (hin : a.inited = true)
    (hempty : identifier = "" ∨ credential = "") :
    authenticate now a ts identifier credential method
      = .ok (a, ts, { success := false, user := none, sessionToken := none,
                      error := some "Invalid credentials" }) := by
  have hv : validateCredentials identifier credential method = false := by
    simp [validateCredentials, hempty]
  simp [authenticate, hin, hv]

/-- C9 witness: empty identifier with a 32 character credential under method
wallet (the credential alone would pass the wallet shape check). -/
theorem c9_empty_credentials_rejected_witness :
    freshAuth.inited = true ∧
    (("" : String) = "" ∨ ("abcdefghijklmnopqrstuvwxyz012345" : String) = "") ∧
    32 ≤ ("abcdefghijklmnopqrstuvwxyz012345" : String).length ∧
    authenticate 3 freshAuth freshTokenStore "" "abcdefghijklmnopqrstuvwxyz012345" "wallet"
      = .ok (freshAuth, freshTokenStore,
             { success := false, user := none, sessionToken := none,
               error := some "Invalid credentials" }) :=
  ⟨rfl, Or.inl rfl, by decide,
   c9_empty_credentials_rejected 3 freshAuth freshTokenStore
     "" "abcdefghijklmnopqrstuvwxyz012345" "wallet" rfl (Or.inl rfl)⟩

/-- C10: starting from freshly initialized services, after two successful
authentications in a row (session token ids tok_0 then tok_1) and a subsequent
logout, only the session whose stored user object is === to the current user
object (the second user) is revoked and removed: the first session record
remains in the session map, its token is not revoked, and validateSession on it
still returns true at any time n3 before its expiry. -/
theorem c10_logout_reference_equality
    (n1 n2 n3 : Nat) (id1 cr1 m1 id2 cr2 m2 : String)
    (hv1 : validateCredentials id1 cr1 m1 = true)
    (hv2 : validateCredentials id2 cr2 m2 = true)
    (a1 : AuthState) (ts1 : TokenStore) (r1 : AuthResult)
    (h1 : authenticate n1 freshAuth freshTokenStore id1 cr1 m1 = .ok (a1, ts1, r1))
    (a2 : AuthState) (ts2 : TokenStore) (r2 : AuthResult)
    (h2 : authenticate n2 a1 ts1 id2 cr2 m2 = .ok (a2, ts2, r2))
    (a3 : AuthState) (ts3 : TokenStore) (ok3 : Bool)
    (h3 : logout a2 ts2 = .ok (a3, ts3, ok3))
    (hexp : n3 ≤ n1 + 86400000) :
    (lookupStr a3.sessions "tok_0").isSome = true ∧
    lookupStr a3.sessions "tok_1" = none ∧
    (lookupStr ts3.tokens "tok_0").map Token.valid = some true ∧
    (lookupStr ts3.tokens "tok_1").map Token.valid = some false ∧
    validateSession n3 a3 ts3 "tok_0" = .ok (true, ts3) := by
  have e0 : ("tok_" ++ toString (0 : Nat)) = "tok_0" := by rfl
  have e1 : ("tok_" ++ toString (1 : Nat)) = "tok_1" := by rfl
  have ne01 : ¬ ("tok_0" : String) = "tok_1" := by decide
  have ne10 : ¬ ("tok_1" : String) = "tok_0" := by decide
  simp [authenticate, createToken, freshAuth, freshTokenStore, hv1, setStr, e0] at h1
  obtain ⟨hA1, hT1, hR1⟩ := h1
  subst hA1 hT1 hR1
  simp [authenticate, createToken, hv2, setStr, e1, ne10] at h2
  obtain ⟨hA2, hT2, hR2⟩ := h2
  subst hA2 hT2 hR2
  simp [logout, refEq, revokeToken, lookupStr, setStr, ne01, ne10] at h3
  obtain ⟨hA3, hT3, hO3⟩ := h3
  subst hA3 hT3 hO3
  refine ⟨?_, ?_, ?_, ?_, ?_⟩
  · simp [lookupStr]
  · simp [lookupStr, ne10]
  · simp [lookupStr, setStr, ne01, ne10]
  · simp [lookupStr, setStr, ne01, ne10]
  · have hnx : ¬ (n1 + 86400000 < n3) := by omega
    simp [validateSession, validateToken, lookupStr, setStr, ne01, ne10, hnx]

/-- C10 witness: the theorem at the concrete double authentication at times 5
and 6, validated at time 7. -/
theorem c10_logout_reference_equality_witness :
    validateCredentials "a@b.com" "longenoughpassword" "password" = true ∧
    authenticate 5 freshAuth freshTokenStore "a@b.com" "longenoughpassword" "password"
      = .ok (c10w1.1, c10w1.2.1, c10w1.2.2) ∧
    authenticate 6 c10w1.1 c10w1.2.1 "a@b.com" "longenoughpassword" "password"
      = .ok (c10w2.1, c10w2.2.1, c10w2.2.2) ∧
    logout c10w2.1 c10w2.2.1 = .ok (c10w3.1, c10w3.2.1, c10w3.2.2) ∧
    (7 : Nat) ≤ 5 + 86400000 ∧
    ((lookupStr c10w3.1.sessions "tok_0").isSome = true ∧
      lookupStr c10w3.1.sessions "tok_1" = none ∧
      (lookupStr c10w3.2.1.tokens "tok_0").map Token.valid = some true ∧
      (lookupStr c10w3.2.1.tokens "tok_1").map Token.valid = some false ∧
      validateSession 7 c10w3.1 c10w3.2.1 "tok_0" = .ok (true, c10w3.2.1)) :=
  ⟨rfl, rfl, rfl, rfl, by omega,
   c10_logout_reference_equality 5 6 7 "a@b.com" "longenoughpassword" "password"
     "a@b.com" "longenoughpassword" "password" rfl rfl
     c10w1.1 c10w1.2.1 c10w1.2.2 rfl
     c10w2.1 c10w2.2.1 c10w2.2.2 rfl
     c10w3.1 c10w3.2.1 c10w3.2.2 rfl (by omega)⟩

theorem runHandler_emitFree (f : Nat) (s : BusState) (ev : BusEvent) (acts : List HAct)
    (h : emitFree acts = true) : runHandler f s ev acts = (s, !hasRaise acts) := by
  induction acts with
  | nil => simp [runHandler, hasRaise]
  | cons a rest ih =>
    cases a with
    | pureAct =>
      simp [emitFree] at h
      simp [runHandler, hasRaise, ih h]
    | raiseAct => simp [runHandler, hasRaise]
    | emitAct t d => simp [emitFree] at h

theorem runListeners_emitFree (f : Nat) (ev : BusEvent) (ls : List HListener) :
    ∀ s : BusState, (∀ l ∈ ls, emitFree l.handler = true) →
    runListeners f s ev ls
      = ({ s with invocations := s.invocations ++ ls.map (fun l => l.id) },
         (ls.filter (fun l => !hasRaise l.handler && l.once)).map (fun l => l.id)) := by
  induction ls with
  | nil =>
    intro s h
    obtain ⟨i, L, Q, P, a, b, inv⟩ := s
    simp [runListeners]
  | cons l rest ih =>
    intro s h
    have hl : emitFree l.handler = true := h l (by simp)
    have hrest : ∀ x ∈ rest, emitFree x.handler = true := fun x hx => h x (by simp [hx])
    obtain ⟨i, L, Q, P, a, b, inv⟩ := s
    simp [runListeners, runHandler_emitFree _ _ _ _ hl, ih _ hrest, List.filter_cons]
    by_cases hc : hasRaise l.handler = false ∧ l.once = true
    · simp [hc]
    · simp [hc]

theorem offCatch_fields (st : BusState) (lid : Nat) :
    (offCatch st lid).invocations = st.invocations ∧
    (offCatch st lid).eventQueue = st.eventQueue ∧
    (offCatch st lid).processing = st.processing ∧
    (offCatch st lid).inited = st.inited ∧
    (offCatch st lid).nextEventId = st.nextEventId := by
  by_cases hin : st.inited = true
  · simp [offCatch, off, hin]
  · have hin2 : st.inited = false := by
      cases h : st.inited
      · rfl
      · exact absurd h hin
    simp [offCatch, off, hin2]

theorem offFold_fields (ids : List Nat) : ∀ st : BusState,
    (ids.foldl offCatch st).invocations = st.invocations ∧
    (ids.foldl offCatch st).eventQueue = st.eventQueue ∧
    (ids.foldl offCatch st).processing = st.processing ∧
    (ids.foldl offCatch st).inited = st.inited ∧
    (ids.foldl offCatch st).nextEventId = st.nextEventId := by
  induction ids with
  | nil => intro st; exact ⟨rfl, rfl, rfl, rfl, rfl⟩
  | cons lid rest ih =>
    intro st
    obtain ⟨e1, e2, e3, e4, e5⟩ := offCatch_fields st lid
    obtain ⟨f1, f2, f3, f4, f5⟩ := ih (offCatch st lid)
    simp only [List.foldl_cons]
    exact ⟨f1.trans e1, f2.trans e2, f3.trans e3, f4.trans e4, f5.trans e5⟩

theorem drainQueue_empty (f : Nat) (s : BusState) (h : s.eventQueue = []) :
    drainQueue f s = s := by
  cases f with
  | zero => simp [drainQueue]
  | succ g => simp [drainQueue, h]

theorem emit_processing (f : Nat) (s : BusState) (now : Nat) (t d : String)
    (hin : s.inited = true) (hp : s.processing = true) :
    emit f s now t d = .ok { s with
      eventQueue := s.eventQueue ++ [{ type := t, data := d, timestamp := now, id := s.nextEventId }],
      nextEventId := s.nextEventId + 1 } := by
  cases f with
  | zero => simp [emit, hin, processQueue]
  | succ g => simp [emit, hin, processQueue, hp]

theorem processEvent_clean (f : Nat) (s : BusState) (ev : BusEvent)
    (h : ∀ l ∈ listenersFor s ev.type, emitFree l.handler = true ∧ l.once = false) :
    processEvent f s ev
      = { s with invocations := s.invocations ++ (listenersFor s ev.type).map (fun l => l.id) } := by
  obtain ⟨i, L, Q, P, a, b, inv⟩ := s
  cases hlk : lookupStr L ev.type with
  | none =>
    simp [processEvent, listenersFor, hlk]
  | some ls =>
    have hfor : listenersFor ⟨i, L, Q, P, a, b, inv⟩ ev.type = ls := by
      simp [listenersFor, hlk]
    rw [hfor] at h ⊢
    by_cases he : ls.isEmpty
    · have hnil : ls = [] := by cases ls <;> simp_all
      subst hnil
      simp [processEvent, hlk]
    · have hfilter : ls.filter (fun l => !hasRaise l.handler && l.once) = [] := by
        rw [List.filter_eq_nil_iff]
        intro l hl
        simp [(h l hl).2]
      simp [processEvent, hlk, he,
        runListeners_emitFree f ev ls _ (fun l hl => (h l hl).1), hfilter]

theorem emit_quiescent (f : Nat) (hf : 2 ≤ f) (s : BusState) (now : Nat) (t d : String)
    (hin : s.inited = true) (hp : s.processing = false) (hq : s.eventQueue = [])
    (hls : ∀ l ∈ listenersFor s t, emitFree l.handler = true ∧ l.once = false) :
    emit f s now t d
      = .ok { s with
          nextEventId := s.nextEventId + 1,
          invocations := s.invocations ++ (listenersFor s t).map (fun l => l.id) } := by
  obtain ⟨g, rfl⟩ : ∃ g, f = g + 2 := ⟨f - 2, by omega⟩
  obtain ⟨i, L, Q, P, a, b, inv⟩ := s
  simp at hin hp hq
  subst hin hp hq
  have h' : ∀ l ∈ listenersFor ⟨true, L, [], true, a, b + 1, inv⟩ t,
      emitFree l.handler = true ∧ l.once = false := by
    simpa [listenersFor] using hls
  have hpe := processEvent_clean g ⟨true, L, [], true, a, b + 1, inv⟩ ⟨t, d, now, b⟩ h'
  simp [listenersFor] at hpe
  simp [emit, processQueue, drainQueue, hpe, drainQueue_empty, listenersFor]

theorem processEvent_fields (f : Nat) (s : BusState) (ev : BusEvent)
    (h : ∀ l ∈ listenersFor s ev.type, emitFree l.handler = true) :
    (processEvent f s ev).invocations
        = s.invocations ++ (listenersFor s ev.type).map (fun l => l.id) ∧
    (processEvent f s ev).eventQueue = s.eventQueue ∧
    (processEvent f s ev).processing = s.processing ∧
    (processEvent f s ev).inited = s.inited ∧
    (processEvent f s ev).nextEventId = s.nextEventId := by
  obtain ⟨i, L, Q, P, a, b, inv⟩ := s
  cases hlk : lookupStr L ev.type with
  | none => simp [processEvent, listenersFor, hlk]
  | some ls =>
    have hfor : listenersFor ⟨i, L, Q, P, a, b, inv⟩ ev.type = ls := by
      simp [listenersFor, hlk]
    rw [hfor] at h ⊢
    by_cases he : ls.isEmpty
    · have hnil : ls = [] := by cases ls <;> simp_all
      subst hnil
      simp [processEvent, hlk]
    · have hrl := runListeners_emitFree f ev ls ⟨i, L, Q, P, a, b, inv⟩ h
      have hf := offFold_fields
        ((ls.filter (fun l => !hasRaise l.handler && l.once)).map (fun l => l.id))
        { inited := i, listeners := L, eventQueue := Q, processing := P,
          nextListenerId := a, nextEventId := b,
          invocations := inv ++ ls.map (fun l => l.id) }
      simp [processEvent, hlk, he, hrl]
      exact ⟨by simpa using hf.1, by simpa using hf.2.1, by simpa using hf.2.2.1,
             by simpa using hf.2.2.2.1, by simpa using hf.2.2.2.2⟩

theorem emit_quiescent_fields (f : Nat) (hf : 2 ≤ f) (s : BusState) (now : Nat)
    (t d : String) (hin : s.inited = true) (hp : s.processing = false)
    (hq : s.eventQueue = [])
    (hls : ∀ l ∈ listenersFor s t, emitFree l.handler = true) :
    (emit f s now t d).map (fun x => (x.eventQueue, x.processing, x.invocations))
      = .ok ([], false, s.invocations ++ (listenersFor s t).map (fun l => l.id)) := by
  obtain ⟨g, rfl⟩ : ∃ g, f = g + 2 := ⟨f - 2, by omega⟩
  obtain ⟨i, L, Q, P, a, b, inv⟩ := s
  simp at hin hp hq
  subst hin hp hq
  have h' : ∀ l ∈ listenersFor ⟨true, L, [], true, a, b + 1, inv⟩ ((⟨t, d, now, b⟩ : BusEvent).type),
      emitFree l.handler = true := by
    simpa [listenersFor] using hls
  have hpe := processEvent_fields g ⟨true, L, [], true, a, b + 1, inv⟩ ⟨t, d, now, b⟩ h'
  have hq2 : (processEvent g ⟨true, L, [], true, a, b + 1, inv⟩ ⟨t, d, now, b⟩).eventQueue = [] := by
    simpa using hpe.2.1
  have hp2 : (processEvent g ⟨true, L, [], true, a, b + 1, inv⟩ ⟨t, d, now, b⟩).invocations
      = inv ++ (listenersFor ⟨true, L, [], true, a, b + 1, inv⟩ t).map (fun l => l.id) := by
    simpa [listenersFor] using hpe.1
  simp [emit, processQueue, drainQueue, drainQueue_empty _ _ hq2, hq2, hp2, listenersFor,
    Except.map]

theorem emit_single (f : Nat) (hf : 2 ≤ f) (s : BusState) (now : Nat) (t d : String)
    (l : HListener) (hin : s.inited = true) (hp : s.processing = false)
    (hq : s.eventQueue = []) (hL : s.listeners = [(t, [l])])
    (hef : emitFree l.handler = true) :
    emit f s now t d
      = .ok { s with
          listeners := if !hasRaise l.handler && l.once then [(t, [])] else [(t, [l])],
          nextEventId := s.nextEventId + 1,
          invocations := s.invocations ++ [l.id] } := by
  obtain ⟨g, rfl⟩ : ∃ g, f = g + 2 := ⟨f - 2, by omega⟩
  obtain ⟨i, L, Q, P, a, b, inv⟩ := s
  simp at hin hp hq hL
  subst hin hp hq hL
  have hrl := runListeners_emitFree g ⟨t, d, now, b⟩ [l]
    ⟨true, [(t, [l])], [], true, a, b + 1, inv⟩ (by simpa using hef)
  by_cases hc : (!hasRaise l.handler && l.once) = true
  · simp [emit, processQueue, drainQueue, processEvent, lookupStr, hrl, hc,
      drainQueue_empty, offCatch, off, removeListener, removeFirstById]
  · have hc2 : (!hasRaise l.handler && l.once) = false := by
      cases h2 : (!hasRaise l.handler && l.once)
      · rfl
      · exact absurd h2 hc
    simp [emit, processQueue, drainQueue, processEvent, lookupStr, hrl, hc2,
      drainQueue_empty]

/-- C2 amended: an emit call issued while no drain is in progress returns only
after its own event has been fully dispatched (empty queue, processing flag
clear, every listener of the type invoked); a re-entrant emit issued while a
drain is in progress (processing flag set) returns immediately after queueing
its event, which is dispatched later by the in-progress drain loop. -/
theorem c2_emit_dispatch_amended (f f2 : Nat) (hf : 2 ≤ f) (s sr : BusState) (now now2 : Nat)
    (t d t2 d2 : String)
    (hin : s.inited = true) (hp : s.processing = false) (hq : s.eventQueue = [])
    (hls : ∀ l ∈ listenersFor s t, emitFree l.handler = true)
    (hrin : sr.inited = true) (hrp : sr.processing = true) :
    (emit f s now t d).map (fun x => (x.eventQueue, x.processing, x.invocations))
      = .ok ([], false, s.invocations ++ (listenersFor s t).map (fun l => l.id)) ∧
    emit f2 sr now2 t2 d2
      = .ok { sr with
          eventQueue := sr.eventQueue
            ++ [{ type := t2, data := d2, timestamp := now2, id := sr.nextEventId }],
          nextEventId := sr.nextEventId + 1 } :=
  ⟨emit_quiescent_fields f hf s now t d hin hp hq hls,
   emit_processing f2 sr now2 t2 d2 hrin hrp⟩

/-- C7: for two events emitted in immediate succession on a quiescent
initialized bus whose relevant listeners neither re-emit nor use once, every
listener of the first event is invoked before any listener of the second: the
invocation log extends by exactly the first event type listener ids followed by
the second event type listener ids. -/
theorem c7_fifo_across_emits (f : Nat) (hf : 2 ≤ f) (s : BusState)
    (n1 n2 : Nat) (t1 d1 t2 d2 : String)
    (hin : s.inited = true) (hp : s.processing = false) (hq : s.eventQueue = [])
    (hls1 : ∀ l ∈ listenersFor s t1, emitFree l.handler = true ∧ l.once = false)
    (hls2 : ∀ l ∈ listenersFor s t2, emitFree l.handler = true ∧ l.once = false)
    (s1 s2 : BusState)
    (h1 : emit f s n1 t1 d1 = .ok s1) (h2 : emit f s1 n2 t2 d2 = .ok s2) :
    s2.invocations
      = s.invocations ++ (listenersFor s t1).map (fun l => l.id)
          ++ (listenersFor s t2).map (fun l => l.id) := by
  rw [emit_quiescent f hf s n1 t1 d1 hin hp hq hls1] at h1
  have hs1 : s1
      = { s with
          nextEventId := s.nextEventId + 1,
          invocations := s.invocations ++ (listenersFor s t1).map (fun l => l.id) } :=
    (Except.ok.inj h1).symm
  subst hs1
  rw [emit_quiescent f hf _ n2 t2 d2 (by simpa using hin) (by simpa using hp)
        (by simpa using hq) (by simpa [listenersFor] using hls2)] at h2
  have hs2 := (Except.ok.inj h2).symm
  subst hs2
  simp [listenersFor]

/-- C1 amended: a once listener whose handler completes without raising is
removed from its event type listener list after its invocation, and emitting
the same event type twice invokes it exactly once; a once listener whose
handler raises is not removed (the push to toRemove sits after the await inside
the try block) and is invoked again by the second emit. -/
theorem c1_once_listener_amended (f f2 : Nat) (hf : 2 ≤ f) (hf2 : 2 ≤ f2)
    (s : BusState) (t : String) (l : HListener) (n1 n2 : Nat) (d1 d2 : String)
    (hin : s.inited = true) (hp : s.processing = false) (hq : s.eventQueue = [])
    (hL : s.listeners = [(t, [l])]) (honce : l.once = true)
    (hef : emitFree l.handler = true)
    (s1 s2 : BusState)
    (h1 : emit f s n1 t d1 = .ok s1) (h2 : emit f2 s1 n2 t d2 = .ok s2) :
    (hasRaise l.handler = false →
      listenersFor s1 t = [] ∧ s2.invocations = s.invocations ++ [l.id]) ∧
    (hasRaise l.handler = true →
      listenersFor s1 t = [l] ∧ s2.invocations = s.invocations ++ [l.id] ++ [l.id]) := by
  rw [emit_single f hf s n1 t d1 l hin hp hq hL hef] at h1
  have hs1 : s1
      = { s with
          listeners := if !hasRaise l.handler && l.once then [(t, [])] else [(t, [l])],
          nextEventId := s.nextEventId + 1,
          invocations := s.invocations ++ [l.id] } :=
    (Except.ok.inj h1).symm
  subst hs1
  constructor
  · intro hnr
    have hcond : (!hasRaise l.handler && l.once) = true := by simp [hnr, honce]
    simp only [hcond, reduceIte] at h2 ⊢
    rw [emit_quiescent f2 hf2 _ n2 t d2 (by simpa using hin) (by simpa using hp)
          (by simpa using hq) (by simp [listenersFor, lookupStr])] at h2
    have hs2 := (Except.ok.inj h2).symm
    subst hs2
    constructor
    · simp [listenersFor, lookupStr]
    · simp [listenersFor, lookupStr]
  · intro hr
    have hcond : (!hasRaise l.handler && l.once) = false := by simp [hr]
    simp only [hcond, reduceIte] at h2 ⊢
    rw [emit_single f2 hf2 _ n2 t d2 l (by simpa using hin) (by simpa using hp)
          (by simpa using hq) (by simp) hef] at h2
    have hs2 := (Except.ok.inj h2).symm
    subst hs2
    simp only [hcond, reduceIte]
    constructor
    · simp [listenersFor, lookupStr]
    · simp

theorem relFn_le {a b : HListener} (h : relFn a b) : descFn a b := by
  rcases h with h | ⟨h, _⟩
  · exact le_of_lt h
  · exact le_of_eq h.symm

theorem mem_insertAfterGE (x y : HListener) (l : List HListener) :
    y ∈ insertAfterGE x l ↔ y = x ∨ y ∈ l := by
  induction l with
  | nil => simp [insertAfterGE]
  | cons h tl ih =>
    by_cases hp : h.priority ≥ x.priority
    · simp [insertAfterGE, hp, ih]
      tauto
    · simp [insertAfterGE, hp]

theorem insertAfterGE_append (x : HListener) (l : List HListener)
    (h : ∀ y ∈ l, x.priority ≤ y.priority) : insertAfterGE x l = l ++ [x] := by
  induction l with
  | nil => simp [insertAfterGE]
  | cons hd tl ih =>
    have hge : hd.priority ≥ x.priority := h hd (by simp)
    simp [insertAfterGE, hge, ih (fun y hy => h y (by simp [hy]))]

theorem insertAfterGE_pairwise (x : HListener) (l : List HListener)
    (hs : l.Pairwise relFn) (hid : ∀ y ∈ l, y.id < x.id) :
    (insertAfterGE x l).Pairwise relFn := by
  induction l with
  | nil => simp [insertAfterGE, relFn]
  | cons h tl ih =>
    rw [List.pairwise_cons] at hs
    by_cases hp : h.priority ≥ x.priority
    · rw [insertAfterGE]
      simp only [hp, if_pos]
      rw [List.pairwise_cons]
      constructor
      · intro y hy
        rw [mem_insertAfterGE] at hy
        rcases hy with rfl | hyt
        · rcases lt_or_eq_of_le hp with hlt | heq
          · exact Or.inl hlt
          · exact Or.inr ⟨heq.symm, hid h (by simp)⟩
        · exact hs.1 y hyt
      · exact ih hs.2 (fun y hy => hid y (by simp [hy]))
    · push_neg at hp
      rw [insertAfterGE]
      simp only [not_le.mpr hp, if_neg, not_false_eq_true, not_le]
      rw [List.pairwise_cons]
      constructor
      · intro y hy
        rcases List.mem_cons.mp hy with rfl | hyt
        · exact Or.inl hp
        · have : descFn h y := relFn_le (hs.1 y hyt)
          exact Or.inl (lt_of_le_of_lt this hp)
      · rw [List.pairwise_cons]
        exact hs

theorem foldl_insert_sorted (l : List HListener) : ∀ acc : List HListener,
    (acc ++ l).Pairwise descFn →
    l.foldl (fun a x => insertAfterGE x a) acc = acc ++ l := by
  induction l with
  | nil => intro acc _; simp
  | cons x tl ih =>
    intro acc hs
    have hge : ∀ y ∈ acc, x.priority ≤ y.priority := by
      intro y hy
      have := (List.pairwise_append.mp hs).2.2 y hy x (by simp)
      exact this
    rw [List.foldl_cons, insertAfterGE_append x acc hge, ih (acc ++ [x]) ?_]
    · simp
    · simpa using hs

theorem stableSortDesc_of_sorted (l : List HListener) (h : l.Pairwise descFn) :
    stableSortDesc l = l := by
  have := foldl_insert_sorted l [] (by simpa using h)
  simpa [stableSortDesc] using this

theorem stableSortDesc_append_single (l : List HListener) (x : HListener) :
    stableSortDesc (l ++ [x]) = insertAfterGE x (stableSortDesc l) := by
  simp [stableSortDesc, List.foldl_append]

theorem onFn_busInv (now : Nat) (s : BusState) (et : String) (h : List HAct)
    (o : Bool) (p : Int) (hI : busInv s) (s2 : BusState) (lid : Nat)
    (heq : onFn now s et h o p = .ok (s2, lid)) : busInv s2 := by
  by_cases hin : s.inited = true
  · simp [onFn, hin] at heq
    obtain ⟨hs2, _⟩ := heq
    subst hs2
    set x : HListener :=
      { id := s.nextListenerId, eventType := et, handler := h,
        once := o, priority := p, registeredAt := now } with hx
    have hsort : stableSortDesc ((lookupStr s.listeners et).getD [] ++ [x])
        = insertAfterGE x ((lookupStr s.listeners et).getD []) := by
      have h1 : ((lookupStr s.listeners et).getD [] : List HListener).Pairwise descFn := by
        have := (hI.1 et).imp (fun hab => relFn_le hab)
        simpa [listenersFor] using this
      rw [stableSortDesc_append_single, stableSortDesc_of_sorted _ h1]
    constructor
    · intro t
      by_cases ht : t = et
      · subst ht
        simp [listenersFor, lookupStr_setStr_self, hsort]
        have h2 : ((lookupStr s.listeners t).getD [] : List HListener).Pairwise relFn := by
          simpa [listenersFor] using hI.1 t
        have h3 : ∀ y ∈ ((lookupStr s.listeners t).getD [] : List HListener), y.id < x.id := by
          intro y hy
          have := hI.2 t y (by simpa [listenersFor] using hy)
          simpa [hx] using this
        exact insertAfterGE_pairwise x _ h2 h3
      · simp [listenersFor, lookupStr_setStr_other _ _ _ _ ht]
        simpa [listenersFor] using hI.1 t
    · intro t l hl
      by_cases ht : t = et
      · subst ht
        simp [listenersFor, lookupStr_setStr_self, hsort] at hl
        rw [mem_insertAfterGE] at hl
        rcases hl with rfl | hl
        · simp [hx]
        · have := hI.2 t l (by simpa [listenersFor] using hl)
          simp only [BusState.nextListenerId]
          omega
      · simp [listenersFor, lookupStr_setStr_other _ _ _ _ ht] at hl
        have := hI.2 t l (by simpa [listenersFor] using hl)
        simp only [BusState.nextListenerId]
        omega
  · simp [onFn, hin] at heq

theorem regMany_busInv (regs : List RegSpec) : ∀ s : BusState,
    busInv s → busInv (regMany s regs) := by
  induction regs with
  | nil => intro s h; exact h
  | cons r rest ih =>
    intro s h
    rw [regMany]
    cases heq : onFn 0 s r.etype r.handler r.once r.priority with
    | ok q => exact ih q.1 (onFn_busInv 0 s r.etype r.handler r.once r.priority h q.1 q.2 heq)
    | error e => exact ih s h

theorem freshBus_busInv : busInv freshBus := by
  constructor
  · intro t
    simp [listenersFor, freshBus, lookupStr]
  · intro t l hl
    simp [listenersFor, freshBus, lookupStr] at hl

/-- C6: after any sequence of on registrations starting from a fresh bus, each
event type listener list is pairwise ordered by strictly descending priority
with ties in ascending id, and ids are assigned in registration order, so ties
keep registration order (stable sort). Dispatch invokes listeners in exactly
this list order: registering priorities 1, 5, 3, 5 (ids 0, 1, 2, 3) on evt and
emitting invokes ids 1, 3, 2, 0, that is priorities 5, 5, 3, 1 with the tied
5s in registration order. -/
theorem c6_listener_priority_order :
    (∀ regs : List RegSpec, ∀ t,
      (listenersFor (regMany freshBus regs) t).Pairwise relFn) ∧
    emit 2 sC6 0 "evt" "" = .ok sC6after ∧
    sC6after.invocations = [1, 3, 2, 0] := by
  refine ⟨fun regs t => (regMany_busInv regs freshBus freshBus_busInv).1 t, ?_, by decide⟩
  exact emit_quiescent 2 (by omega) sC6 0 "evt" "" (by decide) (by decide) (by decide)
    (by decide)

/-- C2 counterexample: busMid is the bus state during an in-progress drain
(processing flag set by _processQueue) at the moment a handler performs a
re-entrant emit of B. That emit returns with its event still sitting in the
queue and the registered B listener not invoked (the invocation log is
unchanged), so the claim that every emit call, including a re-entrant one,
returns only after its event has been fully dispatched is false. -/
theorem c2_reentrant_emit_returns_before_dispatch_cex :
    emit 9 busMid 1 "B" "y" = .ok busMidPost ∧
    busMidPost.eventQueue ≠ [] ∧
    busMidPost.invocations = busMid.invocations ∧
    listenersFor busMid "B" = [lsnB] := by
  refine ⟨?_, by decide, by decide, by decide⟩
  have := emit_processing 9 busMid 1 "B" "y" rfl rfl
  simpa [busMid, busMidPost, lsnB] using this

/-- C2 amended witness: the theorem at the quiescent one-listener bus busQ and
the mid-drain bus busMid. -/
theorem c2_emit_dispatch_amended_witness :
    (2 : Nat) ≤ 2 ∧ busQ.inited = true ∧ busQ.processing = false ∧
    busQ.eventQueue = [] ∧
    (∀ l ∈ listenersFor busQ "A", emitFree l.handler = true) ∧
    busMid.inited = true ∧ busMid.processing = true ∧
    ((emit 2 busQ 0 "A" "x").map (fun x => (x.eventQueue, x.processing, x.invocations))
        = .ok ([], false, busQ.invocations ++ (listenersFor busQ "A").map (fun l => l.id)) ∧
      emit 9 busMid 1 "B" "y"
        = .ok { busMid with
            eventQueue := busMid.eventQueue
              ++ [{ type := "B", data := "y", timestamp := 1, id := busMid.nextEventId }],
            nextEventId := busMid.nextEventId + 1 }) :=
  ⟨by omega, rfl, rfl, rfl, by decide, rfl, rfl,
   c2_emit_dispatch_amended 2 9 (by omega) busQ busMid 0 1 "A" "x" "B" "y" rfl rfl rfl (by decide) rfl rfl⟩

/-- C7 witness: the theorem at the two-listener bus busC7, emitting A then B. -/
theorem c7_fifo_across_emits_witness :
    busC7.inited = true ∧ busC7.processing = false ∧ busC7.eventQueue = [] ∧
    (∀ l ∈ listenersFor busC7 "A", emitFree l.handler = true ∧ l.once = false) ∧
    (∀ l ∈ listenersFor busC7 "B", emitFree l.handler = true ∧ l.once = false) ∧
    emit 2 busC7 0 "A" "" = .ok busC7a ∧
    emit 2 busC7a 1 "B" "" = .ok busC7b ∧
    busC7b.invocations
      = busC7.invocations ++ (listenersFor busC7 "A").map (fun l => l.id)
          ++ (listenersFor busC7 "B").map (fun l => l.id) := by
  have h1 : emit 2 busC7 0 "A" "" = .ok busC7a := by
    have := emit_quiescent 2 (by omega) busC7 0 "A" "" rfl rfl rfl (by decide)
    simpa [busC7, busC7a, lsnA, lsnB, listenersFor, lookupStr] using this
  have h2 : emit 2 busC7a 1 "B" "" = .ok busC7b := by
    have := emit_quiescent 2 (by omega) busC7a 1 "B" "" rfl rfl rfl (by decide)
    simpa [busC7a, busC7b, lsnA, lsnB, listenersFor, lookupStr] using this
  exact ⟨rfl, rfl, rfl, by decide, by decide, h1, h2,
    c7_fifo_across_emits 2 (by omega) busC7 0 1 "A" "" "B" "" rfl rfl rfl (by decide) (by decide)
      busC7a busC7b h1 h2⟩

/-- C1 counterexample: a once listener whose handler raises. After emitting E
once the listener is still registered, and a second emit of E invokes it again:
the invocation log is the listener id twice, refuting both removal-despite-
error and fires-exactly-once. -/
theorem c1_once_removed_despite_error_cex :
    emit 2 busE 0 "E" "" = .ok busEa ∧
    emit 2 busEa 1 "E" "" = .ok busEb ∧
    busEb.invocations = [0, 0] ∧
    listenersFor busEb "E" = [lsnE] := by
  have h1 : emit 2 busE 0 "E" "" = .ok busEa := by
    have := emit_single 2 (by omega) busE 0 "E" "" lsnE rfl rfl rfl rfl (by decide)
    simpa [busE, busEa, lsnE, hasRaise] using this
  have h2 : emit 2 busEa 1 "E" "" = .ok busEb := by
    have := emit_single 2 (by omega) busEa 1 "E" "" lsnE rfl rfl rfl rfl (by decide)
    simpa [busEa, busEb, lsnE, hasRaise] using this
  exact ⟨h1, h2, by decide, by decide⟩

/-- C1 amended witness: the theorem at the bus busO holding one non-raising
once listener for E, emitted twice. -/
theorem c1_once_listener_amended_witness :
    busO.inited = true ∧ busO.processing = false ∧ busO.eventQueue = [] ∧
    busO.listeners = [("E", [lsnO])] ∧ lsnO.once = true ∧
    emitFree lsnO.handler = true ∧
    emit 2 busO 0 "E" "" = .ok busOa ∧
    emit 2 busOa 1 "E" "" = .ok busOb ∧
    ((hasRaise lsnO.handler = false →
        listenersFor busOa "E" = [] ∧ busOb.invocations = busO.invocations ++ [lsnO.id]) ∧
      (hasRaise lsnO.handler = true →
        listenersFor busOa "E" = [lsnO] ∧
        busOb.invocations = busO.invocations ++ [lsnO.id] ++ [lsnO.id])) := by
  have h1 : emit 2 busO 0 "E" "" = .ok busOa := by
    have := emit_single 2 (by omega) busO 0 "E" "" lsnO rfl rfl rfl rfl (by decide)
    simpa [busO, busOa, lsnO, hasRaise] using this
  have h2 : emit 2 busOa 1 "E" "" = .ok busOb := by
    have := emit_quiescent 2 (by omega) busOa 1 "E" "" rfl rfl rfl (by decide)
    simpa [busOa, busOb, listenersFor, lookupStr] using this
  exact ⟨rfl, rfl, rfl, by decide, rfl, by decide, h1, h2,
    c1_once_listener_amended 2 2 (by omega) (by omega) busO "E" lsnO 0 1 "" "" rfl rfl rfl (by decide)
      rfl (by decide) busOa busOb h1 h2⟩
